import Mathlib

/-!
# lib/publish.js — the publish pipeline

A shallow embedding of `src/lib/publish.js`.  The source is written in
continuation-passing style; every asynchronous function `f(args..., cb)` is
rendered as a state-passing function `f args... : World → Outcome × ...`, the
`Outcome` being what the callback `cb` receives.  The external collaborators
(cache, lifecycle runner, installer, packer, checksum, registry client,
filesystem) are answers of an `Env`; each answer may depend on the whole log of
calls made so far, so that a collaborator can answer differently on a second
call.
-/

namespace Publish

/-! ## JavaScript values -/

/-- The primitive JavaScript values that flow through `publish.js`
(configuration values, script entries, error numbers). -/
inductive JSVal where
  | undefined
  | null
  | bool (b : Bool)
  | str (s : String)
  deriving DecidableEq, Repr

/-- JavaScript truthiness. -/
def JSVal.truthy : JSVal → Bool
  | .undefined => false
  | .null => false
  | .bool b => b
  | .str s => s != ""

/-- String coercion, as performed by `"package-" + bd + ".tgz"` and by a
property access `o[bd]`. -/
def JSVal.toStr : JSVal → String
  | .undefined => "undefined"
  | .null => "null"
  | .bool true => "true"
  | .bool false => "false"
  | .str s => s

/-- JavaScript `a && b`: the left operand when it is falsy, else the right one. -/
def JSVal.and (a b : JSVal) : JSVal := if a.truthy then b else a

/-- JavaScript `a || b`: the left operand when it is truthy, else the right one. -/
def JSVal.or (a b : JSVal) : JSVal := if a.truthy then a else b

/-- A JavaScript object with string keys, as an association list. -/
abbrev Obj (α : Type) := List (String × α)

/-- Property read `o[k]` (`undefined` when absent). -/
def objGet (o : Obj JSVal) (k : String) : JSVal := (o.lookup k).getD .undefined

/-- Property removal `delete o[k]`. -/
def objDel {α : Type} (o : Obj α) (k : String) : Obj α := o.filter (fun p => p.1 != k)

/-- Property write `o[k] = v`: overwrite in place, or append a new key. -/
def objSet {α : Type} : Obj α → String → α → Obj α
  | [], k, v => [(k, v)]
  | (k0, v0) :: rest, k, v => if k0 = k then (k, v) :: rest else (k0, v0) :: objSet rest k v

/-! ## Package descriptor -/

/-- The `dist` map of a descriptor: `dist.bin` (per-target objects) and every
other entry. -/
structure Dist where
  bin : Option (Obj (Obj JSVal))
  rest : Obj JSVal
  deriving DecidableEq, Repr

/-- The fields of a parsed `package.json` that `publish.js` reads or writes. -/
structure Pkg where
  name : String
  version : String
  _id : String
  scripts : Option (Obj JSVal)
  publishConfig : Option (Obj JSVal)
  private_ : JSVal
  modules : Option JSVal
  dist : Option Dist
  files : Option (List String)
  prebuilt : JSVal
  deriving DecidableEq, Repr

/-- An error value handed to a callback.  `errno` is `undefined` for plain
`new Error(msg)` objects and for the usage string (whose text is `message`). -/
structure Err where
  message : String
  errno : JSVal
  deriving DecidableEq, Repr

/-- What a callback receives: it is called with an optional error, or it is
never called because a `TypeError` was thrown on the way. -/
inductive Outcome where
  | called (er : Option Err)
  | threw (what : String)
  deriving DecidableEq, Repr

/-! ## The world -/

/-- One call to a collaborator (or one log line).  `registryPublish` also
records the value of the caller's `isRetry` variable at the call site.
`sharedWrite key field value` records an assignment `o[key][field] = value`
that landed on the object every plain object inherits under `key` from
`Object.prototype`, not on an entry of `o` itself. -/
inductive Event where
  | log (level heading : String)
  | readJson (file : String)
  | cacheAdd (arg : String)
  | lifecycle (data : Pkg) (hook dir : String)
  | install (dir tarball : String)
  | writeFile (file : String) (body : Pkg)
  | pack (tarball dir : String) (pbo : Pkg) (gzip : Bool)
  | sha (file : String)
  | readFile (file : String)
  | registryPublish (isRetry : Bool) (data : Pkg) (tarball : String) (readme : Option String)
  | unpublish (ids : List String)
  | output (line : String)
  | sharedWrite (key field : String) (value : JSVal)
  deriving DecidableEq, Repr

/-- Process-wide state: the log of calls, `npm.config`, and `npm.ROLLBACK`. -/
structure World where
  trace : List Event
  config : Obj JSVal
  ROLLBACK : Bool
  deriving DecidableEq, Repr

/-- Record one call. -/
def World.emit (w : World) (e : Event) : World := { w with trace := w.trace ++ [e] }

/-- The collaborators of `publish.js`, none of which lives in this file.  Each
answer is a function of the log so far and of the call's arguments. -/
structure Env where
  /-- `path.resolve`. -/
  resolve : List String → String
  /-- `npm.cache`. -/
  cache : String
  /-- `npm.EPUBLISHCONFLICT`. -/
  EPUBLISHCONFLICT : JSVal
  /-- The property names under which every plain object inherits a (truthy)
  member from `Object.prototype`: `__proto__`, `constructor`, `toString`, ... -/
  inherited : String → Bool
  /-- `readJson(file, cb)`. -/
  readJson : List Event → String → Except Err Pkg
  /-- `npm.commands.cache.add(arg, cb)`. -/
  cacheAdd : List Event → String → Except Err Pkg
  /-- `lifecycle(data, hook, dir, cb)`. -/
  lifecycle : List Event → Pkg → String → String → Option Err
  /-- `npm.commands.install(dir, tarball, cb)`. -/
  install : List Event → String → String → Option Err
  /-- `fs.writeFile(file, JSON.stringify(body), cb)`. -/
  writeFile : List Event → String → Pkg → Option Err
  /-- `tar.pack(tarball, dir, pbo, true, cb)`. -/
  pack : List Event → String → String → Pkg → Bool → Option Err
  /-- `sha.get(file, cb)`; the empty string stands for a missing digest. -/
  sha : List Event → String → Except Err String
  /-- `fs.readFile(file, cb)`: the content, or nothing on error. -/
  readFile : List Event → String → Option String
  /-- `registry.publish(data, tarball, readme, cb)`. -/
  registryPublish : List Event → Pkg → String → Option String → Option Err
  /-- `npm.commands.unpublish(ids, cb)`. -/
  unpublish : List Event → List String → Option Err

/-- `npm.config.get(k)`. -/
def configGet (w : World) (k : String) : JSVal := objGet w.config k

/-- `npm.config.set(k, v)`. -/
def configSet (w : World) (k : String) (v : JSVal) : World :=
  { w with config := objSet w.config k v }

/-! ## Collaborators that are not under `src/` -/

/-- One entry of the list handed to `chain`: it receives the shared descriptor
and returns it, possibly mutated. -/
abbrev Step := Pkg → World → Outcome × Pkg × World

/-- Modelled from the spec: `chain` of the `slide` package (not under src/).
Section 4.1: the stage sequence is run in order, stopping at first failure; a
falsy entry is skipped. -/
def chain : List (Option Step) → Step
  | [], data, w => (.called none, data, w)
  | none :: rest, data, w => chain rest data w
  | some step :: rest, data, w =>
    match step data w with
    | (.called none, data1, w1) => chain rest data1 w1
    | (.called (some er), data1, w1) => (.called (some er), data1, w1)
    | (.threw what, data1, w1) => (.threw what, data1, w1)

/-- Modelled from the spec: `output.write(line, cb)` of `utils/output.js` (not
under src/).  Section 6: the single-line confirmation is produced to the
caller; the write itself reports no failure. -/
def outputWrite (line : String) (w : World) : Option Err × World :=
  (none, w.emit (.output line))

/-- The call `lifecycle(data, hook, dir, cb)` as a chain entry. -/
def lifecycle (env : Env) (hook dir : String) : Step := fun data w =>
  (.called (env.lifecycle w.trace data hook dir), data, w.emit (.lifecycle data hook dir))

/-! ## publish.js -/

/-- `publish.usage`. -/
def usage : String :=
  "npm publish <tarball>\nnpm publish <folder>\n\nPublishes \x27.\x27 if no argument supplied"

/-- The error of line 64. -/
def noPackageJson : Err := ⟨"no package.json file found", .undefined⟩

/-- The error of lines 75-77. -/
def privateError : Err :=
  ⟨"This package has been marked as private\nRemove the \x27private\x27 field from the package.json to publish it.",
   .undefined⟩

/-- `rollbackFailure(data, cb)` applied to `er` (lines 174-187). -/
def rollbackFailure (env : Env) (data : Pkg) (er : Option Err) (w : World) : Outcome × World :=
  match er with
  | none => (.called none, w)
  | some e =>
    let w1 : World := { w with ROLLBACK := true }
    let w2 := (w1.emit (.log "error" "publish failed")).emit (.log "info" "publish failed")
    let ids := [data.name ++ "@" ++ data.version]
    let er_ := env.unpublish w2.trace ids
    let w3 := w2.emit (.unpublish ids)
    match er_ with
    | some _ =>
      (.called (some e),
        (w3.emit (.log "error" "rollback failed")).emit (.log "error" "rollback failed"))
    | none => (.called (some e), w3.emit (.log "info" "publish failed"))

/-- The guard of lines 160-161. -/
def forcedRetry (env : Env) (w : World) (e : Err) (isRetry : Bool) : Bool :=
  decide (e.errno = env.EPUBLISHCONFLICT) && (configGet w "force").truthy && !isRetry

/-- `regPublish` (lines 149-172); `reenter` is the function called as
`publish([arg], true, cb)` on line 165. -/
def regPublishWith (env : Env) (reenter : List String → Bool → World → Outcome × World)
    (data : Pkg) (_prebuilt : Option String) (isRetry : Bool) (arg cachedir : String)
    (w : World) : Outcome × World :=
  let readmeFile := env.resolve [cachedir, "README.md"]
  let tarball := cachedir ++ ".tgz"
  let readme := env.readFile w.trace readmeFile
  let w1 := w.emit (.readFile readmeFile)
  let er := env.registryPublish w1.trace data tarball readme
  let w2 := w1.emit (.registryPublish isRetry data tarball readme)
  match er with
  | some e =>
    if forcedRetry env w2 e isRetry then
      let w3 := w2.emit (.log "warn" "publish")
      let w4 := w3.emit (.unpublish [data._id])
      match reenter [arg] true w4 with
      | (.called er2, w5) => rollbackFailure env data er2 w5
      | (.threw what, w5) => (.threw what, w5)
    else rollbackFailure env data (some e) w2
  | none =>
    match outputWrite ("+ " ++ data._id) w2 with
    | (er2, w3) => rollbackFailure env data er2 w3

/-- The four strings pushed onto `pbo.files` (lines 125-128). -/
def buildFiles : List String := ["build", "build/", "*.node", "*.js"]

/-- Lines 118-128: the edit of the rebuilt descriptor. -/
def rewriteDescriptor (pbo : Pkg) (bd : JSVal) : Pkg :=
  { pbo with
    scripts := pbo.scripts.map
      (fun s => objDel (objDel (objDel s "preinstall") "install") "postinstall")
    prebuilt := bd
    files := some (pbo.files.getD [] ++ buildFiles) }

/-- Whether the read `data.dist.bin[bd]` of line 139 is answered by the
prototype chain: `dist.bin` has no entry of its own under the key and every
plain object inherits a member under it. -/
def resolvesInherited (env : Env) (dist : Dist) (bd : JSVal) : Bool :=
  ((dist.bin.getD []).lookup bd.toStr).isNone && env.inherited bd.toStr

/-- Lines 138-140 on an existing `dist` map, when `data.dist.bin[bd]` is an
entry of `dist.bin` itself or is absent altogether. -/
def recordShasum (dist : Dist) (bd : JSVal) (shasum : String) : Dist :=
  let bin := dist.bin.getD []
  let entry := (bin.lookup bd.toStr).getD []
  { dist with bin := some (objSet bin bd.toStr (objSet entry "shasum" (.str shasum))) }

/-- Lines 138-140 on an existing `dist` map, when `data.dist.bin[bd]` is
answered by the prototype chain: `dist.bin` is created if absent, line 139
stores no per-target object in it (the inherited member is truthy, so `|| {}`
is not taken), and line 140 writes `shasum` onto the inherited member. -/
def recordShasumInherited (dist : Dist) : Dist :=
  { dist with bin := some (dist.bin.getD []) }

/-- `preBuild` (lines 93-147).  Returns the callback outcome, the tarball `tb`
passed as second callback argument, and the descriptor `data` as mutated.
`dist.bin` lists the per-target objects stored in `data.dist.bin` itself. -/
def preBuild (env : Env) (data : Pkg) (bd : JSVal) (w : World) :
    Outcome × Option String × Pkg × World :=
  if !bd.truthy then (.called none, none, data, w) else
  let cf := env.resolve [env.cache, data.name, data.version]
  let pb := env.resolve [cf, "build"]
  let buildTarget := env.resolve [pb, "node_modules", data.name]
  let tb := env.resolve [cf, "package-" ++ bd.toStr ++ ".tgz"]
  let sourceBall := env.resolve [cf, "package.tgz"]
  let w1 := (w.emit (.log "verbose" "preBuild")).emit (.log "verbose" "preBuild")
  let er := env.install w1.trace pb sourceBall
  let w2 := (w1.emit (.install pb sourceBall)).emit (.log "info" "preBuild")
  match er with
  | some _ => (.called none, none, data, w2.emit (.log "warn" "preBuild"))
  | none =>
    let pbj := env.resolve [buildTarget, "package.json"]
    let rd := env.readJson w2.trace pbj
    let w3 := w2.emit (.readJson pbj)
    match rd with
    | .error e => (.called (some e), none, data, w3)
    | .ok pbo0 =>
      let pbo := rewriteDescriptor pbo0 bd
      let wr := env.writeFile w3.trace pbj pbo
      let w4 := w3.emit (.writeFile pbj pbo)
      match wr with
      | some e => (.called (some e), none, data, w4)
      | none =>
        let pk := env.pack w4.trace tb buildTarget pbo true
        let w5 := w4.emit (.pack tb buildTarget pbo true)
        match pk with
        | some e => (.called (some e), none, data, w5)
        | none =>
          let sh := env.sha w5.trace tb
          let w6 := w5.emit (.sha tb)
          match sh with
          | .error e => (.called (some e), none, data, w6)
          | .ok shasum =>
            if shasum = "" then (.called none, none, data, w6) else
            match data.dist with
            | none => (.threw "TypeError: data.dist is undefined", none, data, w6)
            | some dist =>
              if resolvesInherited env dist bd then
                (.called none, some tb, { data with dist := some (recordShasumInherited dist) },
                  w6.emit (.sharedWrite bd.toStr "shasum" (.str shasum)))
              else
                (.called none, some tb,
                  { data with dist := some (recordShasum dist bd shasum) }, w6)

/-- Lines 67-72: every key of `publishConfig` is logged and set. -/
def applyPublishConfig (pc : Option (Obj JSVal)) (w : World) : World :=
  match pc with
  | none => w
  | some o => o.foldl (fun w kv => configSet (w.emit (.log "info" "publishConfig")) kv.1 kv.2) w

/-- Lines 80-85: the value `bd`. -/
def prebuildTarget (data : Pkg) (w : World) : JSVal :=
  match data.scripts with
  | none => .undefined
  | some s =>
    ((((objGet s "preinstall").or (objGet s "install")).or (objGet s "postinstall")).and
      (configGet w "bindist")).and (configGet w "bin-publish")

/-- `publish_` (lines 63-90).  Returns the callback outcome and the descriptor
as mutated. -/
def publish_With (env : Env) (reenter : List String → Bool → World → Outcome × World)
    (arg : String) (data : Option Pkg) (isRetry : Bool) (cachedir : String) (w : World) :
    Outcome × Option Pkg × World :=
  match data with
  | none => (.called (some noPackageJson), none, w)
  | some d =>
    let w1 := applyPublishConfig d.publishConfig w
    let d1 : Pkg := { d with modules := none }
    if d1.private_.truthy then (.called (some privateError), some d1, w1) else
    let bd := prebuildTarget d1 w1
    match preBuild env d1 bd w1 with
    | (.called (some er), _, d2, w2) => (.called (some er), some d2, w2)
    | (.threw what, _, d2, w2) => (.threw what, some d2, w2)
    | (.called none, tb, d2, w2) =>
      match regPublishWith env reenter d2 tb isRetry arg cachedir w2 with
      | (out, w3) => (out, some d2, w3)

/-- The entry `[publish_, arg, data, isRetry, cachedir]` of the chain. -/
def publish_Step (env : Env) (reenter : List String → Bool → World → Outcome × World)
    (arg : String) (isRetry : Bool) (cachedir : String) : Step := fun data w =>
  match publish_With env reenter arg (some data) isRetry cachedir w with
  | (out, data1, w1) => (out, data1.getD data, w1)

/-- `cacheAddPublish` (lines 46-61). -/
def cacheAddPublishWith (env : Env) (reenter : List String → Bool → World → Outcome × World)
    (arg : String) (didPre isRetry : Bool) (w : World) : Outcome × World :=
  let r := env.cacheAdd w.trace arg
  let w1 := w.emit (.cacheAdd arg)
  match r with
  | .error er => (.called (some er), w1)
  | .ok data =>
    let w2 := w1.emit (.log "silly" "publish")
    let cachedir := env.resolve [env.cache, data.name, data.version, "package"]
    match chain
        [ if !didPre then some (lifecycle env "prepublish" cachedir) else none
        , some (publish_Step env reenter arg isRetry cachedir)
        , some (lifecycle env "publish" cachedir)
        , some (lifecycle env "postpublish" cachedir) ] data w2 with
    | (out, _, w3) => (out, w3)

/-- `publish` (lines 27-44), with the function it re-enters as a parameter.
The two-argument call `publish(args, cb)` of line 28 is `isRetry = false`. -/
def publishWith (env : Env) (reenter : List String → Bool → World → Outcome × World)
    (args : List String) (isRetry : Bool) (w : World) : Outcome × World :=
  let args := if args.length = 0 then ["."] else args
  match args with
  | [arg] =>
    let w1 := w.emit (.log "verbose" "publish")
    let file := env.resolve [arg, "package.json"]
    let rd := env.readJson w1.trace file
    let w2 := w1.emit (.readJson file)
    match rd with
    | .error _ => cacheAddPublishWith env reenter arg false isRetry w2
    | .ok _ => cacheAddPublishWith env reenter arg true isRetry w2
  | _ => (.called (some ⟨usage, .undefined⟩), w)

/-- Never called: stands below the re-entrant run, which has `isRetry = true`
and therefore re-enters nothing. -/
def noReentry : List String → Bool → World → Outcome × World :=
  fun _ _ w => (.threw "unreachable", w)

/-- `publish(args, isRetry, cb)`: the pipeline re-entering itself at line 165. -/
def publish (env : Env) (args : List String) (isRetry : Bool) (w : World) : Outcome × World :=
  publishWith env (publishWith env noReentry) args isRetry w

/-- `regPublish` with the real `publish` as re-entry point. -/
def regPublish (env : Env) (data : Pkg) (prebuilt : Option String) (isRetry : Bool)
    (arg cachedir : String) (w : World) : Outcome × World :=
  regPublishWith env (publish env) data prebuilt isRetry arg cachedir w

/-- `publish_` with the real `publish` as re-entry point. -/
def publish_ (env : Env) (arg : String) (data : Option Pkg) (isRetry : Bool) (cachedir : String)
    (w : World) : Outcome × Option Pkg × World :=
  publish_With env (publish env) arg data isRetry cachedir w

/-- `cacheAddPublish` with the real `publish` as re-entry point. -/
def cacheAddPublish (env : Env) (arg : String) (didPre isRetry : Bool) (w : World) :
    Outcome × World :=
  cacheAddPublishWith env (publish env) arg didPre isRetry w

/-! ## Projections of the log -/

/-- The calls the pipeline-level statements count: staging, lifecycle hooks,
registry uploads, unpublishes and confirmation lines. -/
def Event.isCall : Event → Bool
  | .cacheAdd _ => true
  | .lifecycle _ _ _ => true
  | .registryPublish _ _ _ _ => true
  | .unpublish _ => true
  | .output _ => true
  | _ => false

/-- The log restricted to the calls of `Event.isCall`. -/
def calls (t : List Event) : List Event := t.filter Event.isCall

/-- The arguments of the unpublish calls, in order. -/
def unpublishes (t : List Event) : List (List String) :=
  t.filterMap (fun e => match e with | .unpublish ids => some ids | _ => none)

/-- The arguments staged through `cache.add`, in order. -/
def stagings (t : List Event) : List String :=
  t.filterMap (fun e => match e with | .cacheAdd arg => some arg | _ => none)

/-- The lifecycle hooks run, in order, each with its working directory. -/
def hooks (t : List Event) : List (String × String) :=
  t.filterMap (fun e => match e with | .lifecycle _ hook dir => some (hook, dir) | _ => none)

/-- The confirmation lines written, in order. -/
def outputs (t : List Event) : List String :=
  t.filterMap (fun e => match e with | .output line => some line | _ => none)

/-- The registry uploads, in order: the caller's `isRetry` and the tarball. -/
def uploads (t : List Event) : List (Bool × String) :=
  t.filterMap (fun e => match e with | .registryPublish r _ tb _ => some (r, tb) | _ => none)

/-- Number of registry uploads made with the given value of `isRetry`. -/
def uploadCount (r : Bool) (t : List Event) : Nat :=
  t.countP (fun e => match e with | .registryPublish r0 _ _ _ => r0 == r | _ => false)

/-! ## Shapes of a run

Stated on the calls of `Event.isCall` that a run adds to the log. -/

/-- A pipeline that ran to the end without re-entry: staging, an optional
prepublish hook, one upload, the confirmation, then the publish and
postpublish hooks. -/
def SuccessShape (r : Bool) (evs : List Event) : Prop :=
  ∃ arg d tb rd dir pre,
    evs = .cacheAdd arg :: (pre ++ [.registryPublish r d tb rd, .output ("+ " ++ d._id),
      .lifecycle d "publish" dir, .lifecycle d "postpublish" dir]) ∧
    (pre = [] ∨ ∃ d0, pre = [.lifecycle d0 "prepublish" dir])

/-- A successful `regPublish`: either upload and confirmation, or (only with
`isRetry = false`) an upload answered with Conflict, the unpublish of `_id` and
a complete re-entrant pipeline. -/
def RegShape (env : Env) (r : Bool) (d : Pkg) (evs : List Event) : Prop :=
  (∃ tb rd, evs = [.registryPublish r d tb rd, .output ("+ " ++ d._id)]) ∨
  (r = false ∧ ∃ tb rd inner t e,
    evs = [.registryPublish false d tb rd, .unpublish [d._id]] ++ inner ∧
    SuccessShape true inner ∧
    env.registryPublish t d tb rd = some e ∧ e.errno = env.EPUBLISHCONFLICT)

/-- A pipeline whose upload stage went through `RegShape`, followed by the two
hooks of the pipeline itself. -/
def RetryShape (env : Env) (evs : List Event) : Prop :=
  ∃ arg d dir pre rest,
    evs = .cacheAdd arg :: (pre ++ rest ++
      [.lifecycle d "publish" dir, .lifecycle d "postpublish" dir]) ∧
    (pre = [] ∨ ∃ d0, pre = [.lifecycle d0 "prepublish" dir]) ∧
    RegShape env false d rest

/-- The shape of a successful top-level run. -/
def PipelineShape (env : Env) (r : Bool) (evs : List Event) : Prop :=
  SuccessShape r evs ∨ (r = false ∧ RetryShape env evs)

/-- A run from `w` to `w1` with outcome `out`: the calls it added, how many
uploads it made for each value of `isRetry`, and its shape on success. -/
def RunOK (r : Bool) (w w1 : World) (out : Outcome) (S : List Event → Prop) : Prop :=
  ∃ evs, calls w1.trace = calls w.trace ++ evs ∧
    uploadCount false evs ≤ (if r then 0 else 1) ∧ uploadCount true evs ≤ 1 ∧
    (out = .called none → S evs)

/-- What is required of the function re-entered on line 165. -/
def InnerOK (f : List String → Bool → World → Outcome × World) : Prop :=
  ∀ a w, RunOK true w (f a true w).2 (f a true w).1 (SuccessShape true)

/-- Whether an event is a registry upload. -/
def Event.isUpload : Event → Bool
  | .registryPublish _ _ _ _ => true
  | _ => false

/-! ## Concrete scenarios -/

/-- A stand-in for `path.resolve`: the segments joined with a slash. -/
def joinPath (parts : List String) : String := "/".intercalate parts

/-- A valid, non-private descriptor without install scripts. -/
def samplePkg : Pkg :=
  { name := "mypkg", version := "1.0.0", _id := "mypkg@1.0.0", scripts := none,
    publishConfig := none, private_ := .undefined, modules := none,
    dist := some ⟨none, []⟩, files := none, prebuilt := .undefined }

/-- The property names of `Object.prototype`. -/
def objectPrototypeNames : List String :=
  ["constructor", "toString", "toLocaleString", "valueOf", "hasOwnProperty", "isPrototypeOf",
   "propertyIsEnumerable", "__defineGetter__", "__defineSetter__", "__lookupGetter__",
   "__lookupSetter__", "__proto__"]

/-- Every collaborator succeeds. -/
def healthy : Env :=
  { resolve := joinPath, cache := "/cache", EPUBLISHCONFLICT := .str "EPUBLISHCONFLICT",
    inherited := fun k => objectPrototypeNames.contains k,
    readJson := fun _ _ => .ok samplePkg,
    cacheAdd := fun _ _ => .ok samplePkg,
    lifecycle := fun _ _ _ _ => none,
    install := fun _ _ _ => none,
    writeFile := fun _ _ _ => none,
    pack := fun _ _ _ _ _ => none,
    sha := fun _ _ => .ok "abc",
    readFile := fun _ _ => none,
    registryPublish := fun _ _ _ _ => none,
    unpublish := fun _ _ => none }

/-- The registry error "this version already exists". -/
def conflictErr : Err := ⟨"conflict", .str "EPUBLISHCONFLICT"⟩

/-- Some other registry error. -/
def otherErr : Err := ⟨"boom", .undefined⟩

/-- The error of a failing unpublish. -/
def unpublishErr : Err := ⟨"unpublish failed", .undefined⟩

/-- The error of a failing lifecycle script. -/
def hookErr : Err := ⟨"hook failed", .undefined⟩

/-- Whether an upload has been logged already. -/
def hasUpload (t : List Event) : Bool := t.any Event.isUpload

/-- The first upload answers Conflict, later uploads succeed. -/
def conflictOnce : Env :=
  { healthy with registryPublish := fun t _ _ _ => if hasUpload t then none else some conflictErr }

/-- The first upload answers Conflict, later uploads fail otherwise. -/
def conflictThenBoom : Env :=
  { healthy with
    registryPublish := fun t _ _ _ => if hasUpload t then some otherErr else some conflictErr }

/-- Every upload fails and every unpublish fails too. -/
def brokenRegistry : Env :=
  { healthy with registryPublish := fun _ _ _ _ => some otherErr
                 unpublish := fun _ _ => some unpublishErr }

/-- The staged directory of `samplePkg` under `healthy`. -/
def sampleDir : String := "/cache/mypkg/1.0.0/package"

/-- An empty log, empty configuration. -/
def w0 : World := ⟨[], [], false⟩

/-- An empty log, `force` configured. -/
def wForce : World := ⟨[], [("force", .bool true)], false⟩

/-- A private descriptor that still carries a `modules` field. -/
def secretPkg : Pkg := { samplePkg with private_ := .bool true, modules := some (.str "lib") }

/-- A descriptor with install scripts, as staged and as found in the build
directory after the install. -/
def nativePkg : Pkg :=
  { name := "native", version := "1.0.0", _id := "native@1.0.0",
    scripts := some [("preinstall", .str "echo pre"), ("install", .str "node-gyp rebuild"),
      ("test", .str "node test.js")],
    publishConfig := none, private_ := .undefined, modules := none,
    dist := some ⟨none, [("shasum", .str "ffff")]⟩, files := some ["index.js"],
    prebuilt := .undefined }

/-- Every collaborator succeeds; the staged package is `nativePkg`. -/
def nativeEnv : Env :=
  { healthy with readJson := fun _ _ => .ok nativePkg
                 cacheAdd := fun _ _ => .ok nativePkg }

/-- As `nativeEnv`, but the install inside the prebuild fails. -/
def nativeEnvNoInstall : Env := { nativeEnv with install := fun _ _ _ => some otherErr }

/-- The staged directory of `nativePkg`. -/
def nativeDir : String := "/cache/native/1.0.0/package"

/-- As `nativePkg`, with a `publishConfig` that configures binary publishing
and sets `bin-publish` to the string "__proto__". -/
def protoPkg : Pkg :=
  { nativePkg with
    publishConfig := some [("bindist", .str "linux-x64"), ("bin-publish", .str "__proto__")] }

/-- An empty log; binary distribution configured for target `linux-x64` and
binary publishing switched on. -/
def wBin : World := ⟨[], [("bindist", .str "linux-x64"), ("bin-publish", .bool true)], false⟩

/-- The first upload answers Conflict, later ones succeed; the `publish` hook
fails. -/
def conflictOnceHookFails : Env :=
  { conflictOnce with lifecycle := fun _ _ h _ => if h = "publish" then some hookErr else none }

/-- Every collaborator succeeds, except the lifecycle hook of the given name. -/
def hookFails (name : String) : Env :=
  { healthy with lifecycle := fun _ _ h _ => if h = name then some hookErr else none }

/-! ## Basic facts -/

@[simp]
theorem emit_trace (w : World) (e : Event) : (w.emit e).trace = w.trace ++ [e] := rfl

@[simp]
theorem emit_config (w : World) (e : Event) : (w.emit e).config = w.config := rfl

@[simp]
theorem emit_ROLLBACK (w : World) (e : Event) : (w.emit e).ROLLBACK = w.ROLLBACK := rfl

@[simp]
theorem configGet_emit (w : World) (e : Event) (k : String) :
    configGet (w.emit e) k = configGet w k := rfl

@[simp]
theorem forcedRetry_emit (env : Env) (w : World) (ev : Event) (e : Err) (r : Bool) :
    forcedRetry env (w.emit ev) e r = forcedRetry env w e r := rfl

/-- The Rollback Guard hands on exactly the error it was given. -/
theorem rollbackFailure_outcome (env : Env) (data : Pkg) (er : Option Err) (w : World) :
    (rollbackFailure env data er w).1 = .called er := by
  unfold rollbackFailure
  cases er with
  | none => rfl
  | some e => simp only []; split <;> rfl

/-- The log after the Rollback Guard has seen an error: one unpublish of
`name@version` between log lines. -/
theorem rollbackFailure_trace (env : Env) (data : Pkg) (e : Err) (w : World) :
    ∃ l2, (rollbackFailure env data (some e) w).2.trace
        = w.trace ++ [.log "error" "publish failed", .log "info" "publish failed",
            .unpublish [data.name ++ "@" ++ data.version]] ++ l2 ∧
      unpublishes l2 = [] ∧ calls l2 = [] := by
  unfold rollbackFailure
  simp only []
  split
  · exact ⟨[.log "error" "rollback failed", .log "error" "rollback failed"],
      by simp [List.append_assoc], rfl, rfl⟩
  · exact ⟨[.log "info" "publish failed"], by simp [List.append_assoc], rfl, rfl⟩

/-! ## Objects -/

theorem lookup_objSet {α : Type} (o : Obj α) (k k1 : String) (v : α) :
    (objSet o k v).lookup k1 = if k1 = k then some v else o.lookup k1 := by
  induction o with
  | nil =>
    by_cases h : k1 = k
    · subst h; simp [objSet, List.lookup]
    · have : (k1 == k) = false := by simpa using h
      simp [objSet, List.lookup, this, h]
  | cons p rest ih =>
    obtain ⟨k0, v0⟩ := p
    unfold objSet
    by_cases h0 : k0 = k
    · subst h0
      by_cases h : k1 = k0
      · subst h; simp [List.lookup]
      · have : (k1 == k0) = false := by simpa using h
        simp [List.lookup, this, h]
    · simp only [h0, if_false]
      by_cases h : k1 = k0
      · subst h
        have : ¬ k1 = k := h0
        simp [List.lookup, this]
      · have : (k1 == k0) = false := by simpa using h
        simp [List.lookup, this, ih]

theorem objGet_objDel (o : Obj JSVal) (k k1 : String) :
    objGet (objDel o k) k1 = if k1 = k then .undefined else objGet o k1 := by
  unfold objGet objDel
  induction o with
  | nil => simp [List.lookup]
  | cons p rest ih =>
    obtain ⟨k0, v0⟩ := p
    by_cases h0 : k0 = k
    · subst h0
      simp only [List.filter_cons, bne_self_eq_false, Bool.false_eq_true, if_false, ih]
      by_cases h : k1 = k0
      · simp [h]
      · have : (k1 == k0) = false := by simpa using h
        simp [List.lookup, this, h]
    · have hb : (k0 != k) = true := by simpa using h0
      simp only [List.filter_cons, hb, if_true]
      by_cases h : k1 = k0
      · subst h
        simp [List.lookup, h0]
      · have : (k1 == k0) = false := by simpa using h
        simp only [List.lookup, this, ih]

/-! ## Runs -/

@[simp]
theorem calls_append (a b : List Event) : calls (a ++ b) = calls a ++ calls b := by
  simp [calls]

@[simp]
theorem calls_nil : calls [] = [] := rfl

@[simp]
theorem calls_cons (e : Event) (t : List Event) :
    calls (e :: t) = if e.isCall then e :: calls t else calls t := by
  simp [calls, List.filter_cons]

@[simp]
theorem uploadCount_append (r : Bool) (a b : List Event) :
    uploadCount r (a ++ b) = uploadCount r a + uploadCount r b := by
  simp [uploadCount]

@[simp]
theorem uploadCount_nil (r : Bool) : uploadCount r [] = 0 := rfl

@[simp]
theorem uploadCount_upload (r r0 : Bool) (d : Pkg) (tb : String) (rd : Option String)
    (t : List Event) :
    uploadCount r (.registryPublish r0 d tb rd :: t)
      = (if r0 = r then 1 else 0) + uploadCount r t := by
  cases r <;> cases r0 <;> simp [uploadCount, List.countP_cons] <;> omega

@[simp]
theorem uploadCount_unpublish (r : Bool) (ids : List String) (t : List Event) :
    uploadCount r (.unpublish ids :: t) = uploadCount r t := by
  simp [uploadCount, List.countP_cons]

@[simp]
theorem uploadCount_output (r : Bool) (l : String) (t : List Event) :
    uploadCount r (.output l :: t) = uploadCount r t := by
  simp [uploadCount, List.countP_cons]

@[simp]
theorem uploadCount_cacheAdd (r : Bool) (a : String) (t : List Event) :
    uploadCount r (.cacheAdd a :: t) = uploadCount r t := by
  simp [uploadCount, List.countP_cons]

@[simp]
theorem uploadCount_lifecycle (r : Bool) (d : Pkg) (h dir : String) (t : List Event) :
    uploadCount r (.lifecycle d h dir :: t) = uploadCount r t := by
  simp [uploadCount, List.countP_cons]

theorem uploadCount_calls (r : Bool) (t : List Event) :
    uploadCount r (calls t) = uploadCount r t := by
  induction t with
  | nil => rfl
  | cons e t ih =>
    cases e <;> simp_all [uploadCount, calls, List.filter_cons, Event.isCall, List.countP_cons]

theorem calls_rollbackFailure (env : Env) (data : Pkg) (er : Option Err) (w : World) :
    calls (rollbackFailure env data er w).2.trace
      = calls w.trace ++ (match er with
          | none => []
          | some _ => [.unpublish [data.name ++ "@" ++ data.version]]) := by
  cases er with
  | none => simp [rollbackFailure]
  | some e =>
    obtain ⟨l2, ht, _, hl2⟩ := rollbackFailure_trace env data e w
    rw [ht]
    simp [hl2, Event.isCall]

theorem regPublishWith_run (env : Env) (f : List String → Bool → World → Outcome × World)
    (hf : InnerOK f) (d : Pkg) (tb : Option String) (r : Bool) (arg cd : String) (w : World) :
    RunOK r w (regPublishWith env f d tb r arg cd w).2 (regPublishWith env f d tb r arg cd w).1
      (RegShape env r d) := by
  unfold regPublishWith
  simp only []
  split
  · rename_i e he
    split
    · rename_i hforce
      have hr : r = false := by
        simp [forcedRetry] at hforce
        exact hforce.2
      subst hr
      obtain ⟨inner, hcalls, h0, h1, hshape⟩ := hf [arg]
        (((w.emit (.readFile (env.resolve [cd, "README.md"]))).emit
          (.registryPublish false d (cd ++ ".tgz")
            (env.readFile w.trace (env.resolve [cd, "README.md"])))).emit
              (.log "warn" "publish") |>.emit (.unpublish [d._id]))
      split
      · rename_i er2 w5 hres
        rw [hres] at hcalls hshape
        simp only at hcalls hshape
        cases er2 with
        | none =>
          refine ⟨[.registryPublish false d (cd ++ ".tgz")
            (env.readFile w.trace (env.resolve [cd, "README.md"])), .unpublish [d._id]] ++ inner,
            ?_, ?_, ?_, ?_⟩
          · simp [rollbackFailure, hcalls, Event.isCall]
          · simp at h0 ⊢; omega
          · simp at h1 ⊢; omega
          · intro _
            refine Or.inr ⟨rfl, _, _, inner, _, e, rfl, hshape rfl, he, ?_⟩
            simp [forcedRetry] at hforce
            exact hforce.1
        | some e2 =>
          refine ⟨[.registryPublish false d (cd ++ ".tgz")
            (env.readFile w.trace (env.resolve [cd, "README.md"])), .unpublish [d._id]] ++ inner
            ++ [.unpublish [d.name ++ "@" ++ d.version]], ?_, ?_, ?_, ?_⟩
          · rw [calls_rollbackFailure]
            simp [hcalls, Event.isCall]
          · simp at h0 ⊢; omega
          · simp at h1 ⊢; omega
          · intro h
            rw [rollbackFailure_outcome] at h
            cases h
      · rename_i what w5 hres
        rw [hres] at hcalls
        simp only at hcalls
        refine ⟨[.registryPublish false d (cd ++ ".tgz")
            (env.readFile w.trace (env.resolve [cd, "README.md"])), .unpublish [d._id]] ++ inner,
            ?_, ?_, ?_, ?_⟩
        · simp [hcalls, Event.isCall]
        · simp at h0 ⊢; omega
        · simp at h1 ⊢; omega
        · intro h; cases h
    · refine ⟨[.registryPublish r d (cd ++ ".tgz")
            (env.readFile w.trace (env.resolve [cd, "README.md"])),
            .unpublish [d.name ++ "@" ++ d.version]], ?_, ?_, ?_, ?_⟩
      · rw [calls_rollbackFailure]
        simp [Event.isCall]
      · cases r <;> simp
      · cases r <;> simp
      · intro h
        rw [rollbackFailure_outcome] at h
        cases h
  · refine ⟨[.registryPublish r d (cd ++ ".tgz")
            (env.readFile w.trace (env.resolve [cd, "README.md"])),
            .output ("+ " ++ d._id)], ?_, ?_, ?_, ?_⟩
    · simp [outputWrite, rollbackFailure, Event.isCall]
    · cases r <;> simp
    · cases r <;> simp
    · intro _
      exact Or.inl ⟨_, _, rfl⟩

theorem applyPublishConfig_fold (o : Obj JSVal) (w : World) :
    let w1 := o.foldl (fun w kv => configSet (w.emit (.log "info" "publishConfig")) kv.1 kv.2) w
    w1.trace = w.trace ++ List.replicate o.length (.log "info" "publishConfig") ∧
    w1.ROLLBACK = w.ROLLBACK ∧
    w1.config = o.foldl (fun c kv => objSet c kv.1 kv.2) w.config := by
  induction o generalizing w with
  | nil => simp
  | cons kv rest ih =>
    obtain ⟨h1, h2, h3⟩ := ih (configSet (w.emit (.log "info" "publishConfig")) kv.1 kv.2)
    simp only [List.foldl_cons, List.length_cons, List.replicate_succ]
    refine ⟨?_, ?_, ?_⟩
    · rw [h1]; simp [configSet]
    · rw [h2]; simp [configSet]
    · rw [h3]; simp [configSet]

theorem applyPublishConfig_spec (pc : Option (Obj JSVal)) (w : World) :
    (applyPublishConfig pc w).trace
      = w.trace ++ List.replicate (pc.getD []).length (.log "info" "publishConfig") ∧
    (applyPublishConfig pc w).ROLLBACK = w.ROLLBACK ∧
    (applyPublishConfig pc w).config
      = (pc.getD []).foldl (fun c kv => objSet c kv.1 kv.2) w.config := by
  cases pc with
  | none => simp [applyPublishConfig]
  | some o => exact applyPublishConfig_fold o w

theorem calls_replicate_log (n : Nat) (a b : String) :
    calls (List.replicate n (.log a b)) = [] := by
  induction n with
  | zero => rfl
  | succ n ih => simp [List.replicate_succ, Event.isCall, ih]

theorem calls_applyPublishConfig (pc : Option (Obj JSVal)) (w : World) :
    calls (applyPublishConfig pc w).trace = calls w.trace := by
  rw [(applyPublishConfig_spec pc w).1]
  simp [calls_replicate_log]

theorem calls_preBuild (env : Env) (d : Pkg) (bd : JSVal) (w : World) :
    calls (preBuild env d bd w).2.2.2.trace = calls w.trace := by
  unfold preBuild
  simp only []
  repeat' split
  all_goals simp [Event.isCall]

theorem publish_Step_run (env : Env) (f : List String → Bool → World → Outcome × World)
    (hf : InnerOK f) (arg : String) (r : Bool) (cd : String) (d : Pkg) (w : World) :
    RunOK r w (publish_Step env f arg r cd d w).2.2 (publish_Step env f arg r cd d w).1
      (RegShape env r (publish_Step env f arg r cd d w).2.1) := by
  unfold publish_Step publish_With
  simp only []
  split
  · refine ⟨[], ?_, by simp, by simp, ?_⟩
    · simp [calls_applyPublishConfig]
    · intro h; cases h
  · have hc := calls_preBuild env { d with modules := none }
      (prebuildTarget { d with modules := none } (applyPublishConfig d.publishConfig w))
      (applyPublishConfig d.publishConfig w)
    rw [calls_applyPublishConfig] at hc
    generalize preBuild env { d with modules := none }
      (prebuildTarget { d with modules := none } (applyPublishConfig d.publishConfig w))
      (applyPublishConfig d.publishConfig w) = pr at hc
    obtain ⟨o, tb, d2, w2⟩ := pr
    simp only at hc
    cases o with
    | threw what =>
      refine ⟨[], by simp [hc], by simp, by simp, ?_⟩
      intro h; cases h
    | called er =>
      cases er with
      | some e =>
        refine ⟨[], by simp [hc], by simp, by simp, ?_⟩
        intro h; cases h
      | none =>
        obtain ⟨evs, h1, h2, h3, h4⟩ := regPublishWith_run env f hf d2 tb r arg cd w2
        simp only []
        exact ⟨evs, by rw [h1, hc], h2, h3, h4⟩

theorem chain_nil (d : Pkg) (w : World) : chain [] d w = (.called none, d, w) := rfl

theorem chain_none (rest : List (Option Step)) (d : Pkg) (w : World) :
    chain (none :: rest) d w = chain rest d w := rfl

theorem chain_some (s : Step) (rest : List (Option Step)) (d : Pkg) (w : World) :
    chain (some s :: rest) d w
      = match s d w with
        | (.called none, d1, w1) => chain rest d1 w1
        | (.called (some er), d1, w1) => (.called (some er), d1, w1)
        | (.threw what, d1, w1) => (.threw what, d1, w1) := rfl

theorem lifecycle_apply (env : Env) (hook dir : String) (d : Pkg) (w : World) :
    lifecycle env hook dir d w
      = (.called (env.lifecycle w.trace d hook dir), d, w.emit (.lifecycle d hook dir)) := rfl

theorem chain_tail_run (env : Env) (f : List String → Bool → World → Outcome × World)
    (hf : InnerOK f) (arg : String) (r : Bool) (cd : String) (d0 : Pkg) (w : World) :
    RunOK r w
      (chain [some (publish_Step env f arg r cd), some (lifecycle env "publish" cd),
        some (lifecycle env "postpublish" cd)] d0 w).2.2
      (chain [some (publish_Step env f arg r cd), some (lifecycle env "publish" cd),
        some (lifecycle env "postpublish" cd)] d0 w).1
      (fun evs => ∃ d rest, evs = rest ++ [.lifecycle d "publish" cd,
        .lifecycle d "postpublish" cd] ∧ RegShape env r d rest) := by
  obtain ⟨evs, h1, h2, h3, h4⟩ := publish_Step_run env f hf arg r cd d0 w
  simp only [chain_some, chain_nil]
  generalize publish_Step env f arg r cd d0 w = res at h1 h2 h3 h4 ⊢
  obtain ⟨o, d1, w1⟩ := res
  simp only at h1 h4
  cases o with
  | threw what =>
    refine ⟨evs, ?_, h2, h3, ?_⟩
    · simpa using h1
    · intro h; simp at h
  | called er =>
    cases er with
    | some e =>
      refine ⟨evs, ?_, h2, h3, ?_⟩
      · simpa using h1
      · intro h; simp at h
    | none =>
      simp only [lifecycle]
      cases hl1 : env.lifecycle w1.trace d1 "publish" cd with
      | some e =>
        refine ⟨evs ++ [.lifecycle d1 "publish" cd], ?_, ?_, ?_, ?_⟩
        · simp [h1, Event.isCall]
        · simpa using h2
        · simpa using h3
        · intro h; simp at h
      | none =>
        simp only []
        cases hl2 : env.lifecycle (w1.emit (.lifecycle d1 "publish" cd)).trace d1
            "postpublish" cd with
        | some e =>
          refine ⟨evs ++ [.lifecycle d1 "publish" cd, .lifecycle d1 "postpublish" cd],
            ?_, ?_, ?_, ?_⟩
          · simp [h1, Event.isCall]
          · simpa using h2
          · simpa using h3
          · intro h; simp at h
        | none =>
          refine ⟨evs ++ [.lifecycle d1 "publish" cd, .lifecycle d1 "postpublish" cd],
            ?_, ?_, ?_, ?_⟩
          · simp [h1, Event.isCall]
          · simpa using h2
          · simpa using h3
          · intro _
            exact ⟨d1, evs, rfl, h4 rfl⟩

theorem shape_of_tail (env : Env) (r : Bool) (arg cd : String) (pre : List Event) (d : Pkg)
    (rest : List Event) (hpre : pre = [] ∨ ∃ d0, pre = [.lifecycle d0 "prepublish" cd])
    (hreg : RegShape env r d rest) :
    PipelineShape env r (.cacheAdd arg :: (pre ++ (rest ++ [.lifecycle d "publish" cd,
      .lifecycle d "postpublish" cd]))) := by
  rcases hreg with ⟨tb, rd, hrest⟩ | ⟨hr, hrest⟩
  · left
    subst hrest
    exact ⟨arg, d, tb, rd, cd, pre, by simp, hpre⟩
  · right
    refine ⟨hr, arg, d, cd, pre, rest, by simp, hpre, ?_⟩
    subst hr
    exact Or.inr ⟨rfl, hrest⟩

theorem cacheAddPublishWith_run (env : Env) (f : List String → Bool → World → Outcome × World)
    (hf : InnerOK f) (arg : String) (didPre r : Bool) (w : World) :
    RunOK r w (cacheAddPublishWith env f arg didPre r w).2
      (cacheAddPublishWith env f arg didPre r w).1 (PipelineShape env r) := by
  unfold cacheAddPublishWith
  simp only []
  split
  · refine ⟨[.cacheAdd arg], by simp [Event.isCall], by simp, by simp, ?_⟩
    intro h; cases h
  · rename_i data hdata
    cases didPre with
    | true =>
      obtain ⟨evs, h1, h2, h3, h4⟩ := chain_tail_run env f hf arg r
        (env.resolve [env.cache, data.name, data.version, "package"]) data
        ((w.emit (.cacheAdd arg)).emit (.log "silly" "publish"))
      refine ⟨.cacheAdd arg :: evs, ?_, by simpa using h2, by simpa using h3, ?_⟩
      · simp only [Bool.not_true, Bool.false_eq_true, if_false, chain_none]
        rw [h1]; simp [Event.isCall]
      · intro h
        simp only [Bool.not_true, Bool.false_eq_true, if_false, chain_none] at h
        obtain ⟨d, rest, he, hreg⟩ := h4 h
        subst he
        exact shape_of_tail env r arg _ [] d rest (Or.inl rfl) hreg
    | false =>
      simp only [Bool.not_false, if_true]
      rw [chain_some, lifecycle_apply]
      cases hl : env.lifecycle ((w.emit (.cacheAdd arg)).emit (.log "silly" "publish")).trace
          data "prepublish" (env.resolve [env.cache, data.name, data.version, "package"]) with
      | some e =>
        refine ⟨[.cacheAdd arg, .lifecycle data "prepublish"
          (env.resolve [env.cache, data.name, data.version, "package"])], ?_, by simp, by simp, ?_⟩
        · simp [Event.isCall]
        · intro h; simp at h
      | none =>
        obtain ⟨evs, h1, h2, h3, h4⟩ := chain_tail_run env f hf arg r
          (env.resolve [env.cache, data.name, data.version, "package"]) data
          (((w.emit (.cacheAdd arg)).emit (.log "silly" "publish")).emit
            (.lifecycle data "prepublish"
              (env.resolve [env.cache, data.name, data.version, "package"])))
        refine ⟨.cacheAdd arg :: ([.lifecycle data "prepublish"
          (env.resolve [env.cache, data.name, data.version, "package"])] ++ evs), ?_,
          by simpa using h2, by simpa using h3, ?_⟩
        · simp only []
          rw [h1]; simp [Event.isCall]
        · intro h
          simp only [] at h h4
          obtain ⟨d, rest, he, hreg⟩ := h4 h
          subst he
          exact shape_of_tail env r arg _ _ d rest (Or.inr ⟨data, rfl⟩) hreg

theorem publishWith_run (env : Env) (f : List String → Bool → World → Outcome × World)
    (hf : InnerOK f) (args : List String) (r : Bool) (w : World) :
    RunOK r w (publishWith env f args r w).2 (publishWith env f args r w).1
      (PipelineShape env r) := by
  unfold publishWith
  simp only []
  split
  · rename_i arg _
    split
    · obtain ⟨evs, h1, h2, h3, h4⟩ := cacheAddPublishWith_run env f hf arg false r
        ((w.emit (.log "verbose" "publish")).emit
          (.readJson (env.resolve [arg, "package.json"])))
      exact ⟨evs, by rw [h1]; simp [Event.isCall], h2, h3, h4⟩
    · obtain ⟨evs, h1, h2, h3, h4⟩ := cacheAddPublishWith_run env f hf arg true r
        ((w.emit (.log "verbose" "publish")).emit
          (.readJson (env.resolve [arg, "package.json"])))
      exact ⟨evs, by rw [h1]; simp [Event.isCall], h2, h3, h4⟩
  · refine ⟨[], by simp, by simp, by simp, ?_⟩
    intro h; cases h

theorem noReentry_inner : InnerOK noReentry := by
  intro a w
  refine ⟨[], by simp [noReentry], by simp, by simp, ?_⟩
  intro h; cases h

theorem publishWith_inner (env : Env) : InnerOK (publishWith env noReentry) := by
  intro a w
  obtain ⟨evs, h1, h2, h3, h4⟩ := publishWith_run env noReentry noReentry_inner a true w
  refine ⟨evs, h1, h2, h3, ?_⟩
  intro h
  rcases h4 h with hs | ⟨hr, _⟩
  · exact hs
  · cases hr

theorem publish_run (env : Env) (args : List String) (r : Bool) (w : World) :
    RunOK r w (publish env args r w).2 (publish env args r w).1 (PipelineShape env r) :=
  publishWith_run env _ (publishWith_inner env) args r w

/-! ## C1 -/

/-- C1 (amended).  In every run of the Registry Publisher (any argument, any
`isRetry`, any re-entry function) in which the registry upload answers an error
`e` that does not trigger the forced retry, the callback receives exactly `e`,
and the run has logged exactly one unpublish, of `name@version`, whatever the
unpublish call itself answers. -/
theorem rollback_returns_original_error (env : Env)
    (reenter : List String → Bool → World → Outcome × World) (data : Pkg)
    (prebuilt : Option String) (isRetry : Bool) (arg cachedir : String) (w : World) (e : Err)
    (hup : env.registryPublish (w.trace ++ [.readFile (env.resolve [cachedir, "README.md"])])
        data (cachedir ++ ".tgz") (env.readFile w.trace (env.resolve [cachedir, "README.md"]))
        = some e)
    (hnf : forcedRetry env w e isRetry = false) :
    (regPublishWith env reenter data prebuilt isRetry arg cachedir w).1 = .called (some e) ∧
    ∃ evs, (regPublishWith env reenter data prebuilt isRetry arg cachedir w).2.trace
        = w.trace ++ evs ∧
      unpublishes evs = [[data.name ++ "@" ++ data.version]] := by
  have hrun : regPublishWith env reenter data prebuilt isRetry arg cachedir w
      = rollbackFailure env data (some e)
          ((w.emit (.readFile (env.resolve [cachedir, "README.md"]))).emit
            (.registryPublish isRetry data (cachedir ++ ".tgz")
              (env.readFile w.trace (env.resolve [cachedir, "README.md"])))) := by
    simp [regPublishWith, hup, hnf]
  rw [hrun]
  refine ⟨rollbackFailure_outcome _ _ _ _, ?_⟩
  obtain ⟨l2, ht, hl2, _⟩ := rollbackFailure_trace env data e
    ((w.emit (.readFile (env.resolve [cachedir, "README.md"]))).emit
      (.registryPublish isRetry data (cachedir ++ ".tgz")
        (env.readFile w.trace (env.resolve [cachedir, "README.md"]))))
  refine ⟨_, by rw [ht]; simp only [emit_trace, List.append_assoc]; rfl, ?_⟩
  simp [unpublishes, List.filterMap_append] at hl2 ⊢
  exact hl2

/-- C1, witness: every upload fails with `otherErr` and every unpublish fails. -/
theorem rollback_returns_original_error_witness :
    forcedRetry brokenRegistry w0 otherErr false = false ∧
    (regPublishWith brokenRegistry noReentry samplePkg none false "." sampleDir w0).1
      = .called (some otherErr) ∧
    ∃ evs, (regPublishWith brokenRegistry noReentry samplePkg none false "." sampleDir w0).2.trace
        = w0.trace ++ evs ∧
      unpublishes evs = [[samplePkg.name ++ "@" ++ samplePkg.version]] :=
  ⟨by decide,
   rollback_returns_original_error brokenRegistry noReentry samplePkg none false "." sampleDir w0
     otherErr (by decide) (by decide)⟩

/-- C1, counterexample.  With `force` configured and `isRetry = false`, an
upload answering Conflict is followed by the forced retry.  When the retry
succeeds the caller receives no error at all; when the retry's upload fails
with another error, that error is returned instead of the Conflict error and
three unpublishes of `name@version` are logged. -/
theorem rollback_not_for_forced_retry :
    conflictOnce.registryPublish
        (wForce.trace ++ [.readFile (joinPath [sampleDir, "README.md"])]) samplePkg
        (sampleDir ++ ".tgz") none = some conflictErr ∧
    (regPublish conflictOnce samplePkg none false "." sampleDir wForce).1 = .called none ∧
    (publish conflictOnce ["."] false wForce).1 = .called none ∧
    (publish conflictThenBoom ["."] false wForce).1 = .called (some otherErr) ∧
    unpublishes (publish conflictThenBoom ["."] false wForce).2.trace
      = [["mypkg@1.0.0"], ["mypkg@1.0.0"], ["mypkg@1.0.0"]] := by
  decide

/-! ## The re-entry -/

/-- With `isRetry = true` the Registry Publisher never calls the re-entry
function. -/
theorem regPublishWith_retry_indep (env : Env)
    (f g : List String → Bool → World → Outcome × World) (d : Pkg) (tb : Option String)
    (arg cd : String) (w : World) :
    regPublishWith env f d tb true arg cd w = regPublishWith env g d tb true arg cd w := by
  simp [regPublishWith, forcedRetry]

/-- The Registry Publisher uses the re-entry function only with
`isRetry = true`. -/
theorem regPublishWith_congr (env : Env)
    (f g : List String → Bool → World → Outcome × World)
    (hfg : ∀ a w, f a true w = g a true w) (d : Pkg) (tb : Option String) (r : Bool)
    (arg cd : String) (w : World) :
    regPublishWith env f d tb r arg cd w = regPublishWith env g d tb r arg cd w := by
  simp [regPublishWith, hfg]

/-- The pipeline uses the re-entry function only with `isRetry = true`. -/
theorem publishWith_congr (env : Env)
    (f g : List String → Bool → World → Outcome × World)
    (hfg : ∀ a w, f a true w = g a true w) (args : List String) (r : Bool) (w : World) :
    publishWith env f args r w = publishWith env g args r w := by
  have hstep : ∀ arg r cd, publish_Step env f arg r cd = publish_Step env g arg r cd := by
    intro arg r cd
    funext d w
    simp [publish_Step, publish_With, regPublishWith_congr env f g hfg]
  simp [publishWith, cacheAddPublishWith, hstep]

/-- With `isRetry = true` the pipeline never re-enters. -/
theorem publishWith_retry_indep (env : Env)
    (f g : List String → Bool → World → Outcome × World) (args : List String) (w : World) :
    publishWith env f args true w = publishWith env g args true w := by
  have hstep : ∀ arg cd, publish_Step env f arg true cd = publish_Step env g arg true cd := by
    intro arg cd
    funext d w
    simp [publish_Step, publish_With, regPublishWith_retry_indep env f g]
  simp [publishWith, cacheAddPublishWith, hstep]

/-- The recursion of the source: `publish` is the pipeline that re-enters
`publish` itself. -/
theorem publish_unfold (env : Env) (args : List String) (r : Bool) (w : World) :
    publish env args r w = publishWith env (publish env) args r w := by
  unfold publish
  apply publishWith_congr
  intro a w1
  exact publishWith_retry_indep env _ _ a w1

/-! ## C2 -/

/-- C2.  Let the registry upload answer an error `e` with the Conflict errno
while `force` is configured.  With `isRetry = false` the Registry Publisher
logs one unpublish of `_id` (never looking at its answer), calls the re-entry
function exactly once, on `[arg]` with `isRetry = true`, and hands on the
outcome of that call.  With `isRetry = true` it does not use the re-entry
function at all: the Rollback Guard receives `e`, and `e` is what the caller
gets.  Finally every run of `publish` adds at most one upload made with
`isRetry = false` (none when it was itself called with `isRetry = true`) and
at most one made with `isRetry = true`. -/
theorem forced_retry_depth_one (env : Env)
    (f : List String → Bool → World → Outcome × World) (data : Pkg) (prebuilt : Option String)
    (arg cachedir : String) (w : World) (e : Err) :
    let readmeFile := env.resolve [cachedir, "README.md"]
    let readme := env.readFile w.trace readmeFile
    let tarball := cachedir ++ ".tgz"
    let w4 : World := { w with trace := w.trace ++ [.readFile readmeFile,
      .registryPublish false data tarball readme, .log "warn" "publish",
      .unpublish [data._id]] }
    let w2 : World := { w with trace := w.trace ++ [.readFile readmeFile,
      .registryPublish true data tarball readme] }
    (env.registryPublish (w.trace ++ [.readFile readmeFile]) data tarball readme = some e →
      e.errno = env.EPUBLISHCONFLICT → (configGet w "force").truthy = true →
      (regPublishWith env f data prebuilt false arg cachedir w
          = (match f [arg] true w4 with
            | (.called er2, w5) => rollbackFailure env data er2 w5
            | (.threw what, w5) => (.threw what, w5)) ∧
        (regPublishWith env f data prebuilt false arg cachedir w).1 = (f [arg] true w4).1) ∧
      (∀ g, regPublishWith env g data prebuilt true arg cachedir w
          = rollbackFailure env data (some e) w2) ∧
      (regPublishWith env f data prebuilt true arg cachedir w).1 = .called (some e)) ∧
    (∀ args isRetry w0,
      uploadCount false (publish env args isRetry w0).2.trace
        ≤ uploadCount false w0.trace + (if isRetry then 0 else 1) ∧
      uploadCount true (publish env args isRetry w0).2.trace
        ≤ uploadCount true w0.trace + 1) := by
  intro readmeFile readme tarball w4 w2
  refine ⟨?_, ?_⟩
  · intro hup hconf hforce
    have hrun : regPublishWith env f data prebuilt false arg cachedir w
        = (match f [arg] true w4 with
          | (.called er2, w5) => rollbackFailure env data er2 w5
          | (.threw what, w5) => (.threw what, w5)) := by
      have hforce1 : (objGet w.config "force").truthy = true := hforce
      simp only [readmeFile, readme, tarball] at hup
      simp [regPublishWith, hup, forcedRetry, hconf, hforce1, configGet, w4, World.emit,
        readmeFile, readme, tarball]
    have hretry : ∀ g, regPublishWith env g data prebuilt true arg cachedir w
        = rollbackFailure env data (some e) w2 := by
      intro g
      simp only [readmeFile, readme, tarball] at hup
      simp [regPublishWith, hup, forcedRetry, w2, World.emit, readmeFile, readme, tarball]
    refine ⟨⟨hrun, ?_⟩, hretry, ?_⟩
    · rw [hrun]
      rcases hres : f [arg] true w4 with ⟨o, w5⟩
      cases o with
      | called er2 => exact rollbackFailure_outcome _ _ _ _
      | threw what => rfl
    · rw [hretry f]
      exact rollbackFailure_outcome _ _ _ _
  · intro args isRetry w0
    obtain ⟨evs, h1, h2, h3, _⟩ := publish_run env args isRetry w0
    have hf := congrArg (uploadCount false) h1
    have ht := congrArg (uploadCount true) h1
    simp only [uploadCount_calls, uploadCount_append] at hf ht
    constructor
    · cases isRetry <;> simp_all
    · omega

/-- C2, witness: the registry answers Conflict once, `force` is configured. -/
theorem forced_retry_depth_one_witness :
    conflictOnce.registryPublish (wForce.trace ++ [.readFile (joinPath [sampleDir, "README.md"])])
        samplePkg (sampleDir ++ ".tgz") none = some conflictErr ∧
    conflictErr.errno = conflictOnce.EPUBLISHCONFLICT ∧
    (configGet wForce "force").truthy = true ∧
    (regPublishWith conflictOnce (publish conflictOnce) samplePkg none false "." sampleDir
        wForce).1
      = (publish conflictOnce ["."] true
          { wForce with trace := wForce.trace ++ [.readFile (joinPath [sampleDir, "README.md"]),
              .registryPublish false samplePkg (sampleDir ++ ".tgz") none,
              .log "warn" "publish", .unpublish [samplePkg._id]] }).1 ∧
    (regPublishWith conflictOnce (publish conflictOnce) samplePkg none true "." sampleDir
        wForce).1 = .called (some conflictErr) :=
  ⟨by decide, by decide, by decide,
   ((forced_retry_depth_one conflictOnce (publish conflictOnce) samplePkg none "." sampleDir
      wForce conflictErr).1 (by decide) (by decide) (by decide)).1.2,
   ((forced_retry_depth_one conflictOnce (publish conflictOnce) samplePkg none "." sampleDir
      wForce conflictErr).1 (by decide) (by decide) (by decide)).2.2⟩


/-! ## C10 -/

/-- C10.  Take a run of `publish` with `isRetry = false` that succeeds and
during which an upload with `isRetry = true` was made, that is a forced retry
that succeeds.  Then exactly two uploads were made; the first, made with
`isRetry = false`, was answered with a Conflict error; staging ran twice;
leaving the prepublish hooks aside, the hooks run are publish, postpublish
(re-entrant run) and again publish, postpublish (outer run, resumed
afterwards); one confirmation line was written, by the re-entrant run; and the
only unpublish is the one of the conflicting `_id`. -/
theorem forced_retry_resumes_outer_pipeline (env : Env) (args : List String) (w : World)
    (hok : (publish env args false w).1 = .called none)
    (hretry : uploadCount true w.trace < uploadCount true (publish env args false w).2.trace) :
    ∃ evs d tb rd t e d2 tb2 rd2,
      calls (publish env args false w).2.trace = calls w.trace ++ evs ∧
      env.registryPublish t d tb rd = some e ∧ e.errno = env.EPUBLISHCONFLICT ∧
      evs.filter Event.isUpload
        = [.registryPublish false d tb rd, .registryPublish true d2 tb2 rd2] ∧
      (stagings evs).length = 2 ∧
      ((hooks evs).map Prod.fst).filter (fun h => h != "prepublish")
        = ["publish", "postpublish", "publish", "postpublish"] ∧
      outputs evs = ["+ " ++ d2._id] ∧
      unpublishes evs = [[d._id]] := by
  obtain ⟨evs, h1, _, _, h4⟩ := publish_run env args false w
  have hcount := congrArg (uploadCount true) h1
  simp only [uploadCount_calls, uploadCount_append] at hcount
  rw [hcount] at hretry
  rcases h4 hok with hs | ⟨_, hr⟩
  · exfalso
    obtain ⟨arg, d, tb, rd, dir, pre, he, hpre⟩ := hs
    subst he
    rcases hpre with rfl | ⟨d0, rfl⟩ <;> simp at hretry
  · obtain ⟨arg, d, dir, pre, rest, he, hpre, hreg⟩ := hr
    rcases hreg with ⟨tb, rd, hrest⟩ | ⟨_, tb, rd, inner, t, e, hrest, hin, horacle, hconf⟩
    · exfalso
      subst he hrest
      rcases hpre with rfl | ⟨d0, rfl⟩ <;> simp at hretry
    · obtain ⟨arg2, d2, tb2, rd2, dir2, pre2, hin2, hpre2⟩ := hin
      refine ⟨evs, d, tb, rd, t, e, d2, tb2, rd2, h1, horacle, hconf, ?_⟩
      subst he hrest hin2
      rcases hpre with rfl | ⟨d0, rfl⟩ <;> rcases hpre2 with rfl | ⟨d1, rfl⟩ <;>
        simp [stagings, hooks, outputs, unpublishes, Event.isUpload, List.filter_cons]

/-- C10, witness: the registry answers Conflict once, `force` is configured. -/
theorem forced_retry_resumes_outer_pipeline_witness :
    (publish conflictOnce ["."] false wForce).1 = .called none ∧
    uploadCount true wForce.trace
      < uploadCount true (publish conflictOnce ["."] false wForce).2.trace ∧
    ∃ evs d tb rd t e d2 tb2 rd2,
      calls (publish conflictOnce ["."] false wForce).2.trace = calls wForce.trace ++ evs ∧
      conflictOnce.registryPublish t d tb rd = some e ∧
      e.errno = conflictOnce.EPUBLISHCONFLICT ∧
      evs.filter Event.isUpload
        = [.registryPublish false d tb rd, .registryPublish true d2 tb2 rd2] ∧
      (stagings evs).length = 2 ∧
      ((hooks evs).map Prod.fst).filter (fun h => h != "prepublish")
        = ["publish", "postpublish", "publish", "postpublish"] ∧
      outputs evs = ["+ " ++ d2._id] ∧
      unpublishes evs = [[d._id]] :=
  ⟨by decide, by decide,
   forced_retry_resumes_outer_pipeline conflictOnce ["."] wForce (by decide) (by decide)⟩


/-! ## C7 -/

/-- The descriptor rewrite away from the prototype chain.  Run `preBuild` with
a truthy target `t` for which `data.dist.bin[t]` is not answered by the
prototype chain, and let the install, the read of the rebuilt descriptor `pbo`,
its write-back and the pack succeed, the checksum be a non-empty digest `s`,
and the original descriptor carry a `dist` map.  Then `preBuild` succeeds and
returns the tarball `package-<t>.tgz`; the descriptor written back (and packed)
has the files of `pbo` followed by "build", "build/", "*.node", "*.js", has no
preinstall, install or postinstall script while every other script is as in
`pbo`, and has `prebuilt = t`; and the original descriptor ends with
`dist.bin[t].shasum = s`, every other field of `dist.bin[t]`, every other entry
of `dist.bin` and every other entry of `dist` unchanged. -/
theorem prebuild_rewrites_descriptor (env : Env) (data : Pkg) (t : JSVal) (w : World)
    (pbo : Pkg) (s : String) (dist : Dist) :
    let cf := env.resolve [env.cache, data.name, data.version]
    let pb := env.resolve [cf, "build"]
    let buildTarget := env.resolve [pb, "node_modules", data.name]
    let tb := env.resolve [cf, "package-" ++ t.toStr ++ ".tgz"]
    let pbj := env.resolve [buildTarget, "package.json"]
    let t1 := w.trace ++ [.log "verbose" "preBuild", .log "verbose" "preBuild"]
    let t2 := t1 ++ [.install pb (env.resolve [cf, "package.tgz"]), .log "info" "preBuild"]
    let t3 := t2 ++ [.readJson pbj]
    let pbo1 := rewriteDescriptor pbo t
    let t4 := t3 ++ [.writeFile pbj pbo1]
    let t5 := t4 ++ [.pack tb buildTarget pbo1 true]
    t.truthy = true →
    env.install t1 pb (env.resolve [cf, "package.tgz"]) = none →
    env.readJson t2 pbj = .ok pbo →
    env.writeFile t3 pbj pbo1 = none →
    env.pack t4 tb buildTarget pbo1 true = none →
    env.sha t5 tb = .ok s → s ≠ "" →
    data.dist = some dist →
    resolvesInherited env dist t = false →
    ∃ dist1,
      preBuild env data t w
        = (.called none, some tb, { data with dist := some dist1 },
            { w with trace := t5 ++ [.sha tb] }) ∧
      pbo1.files = some (pbo.files.getD [] ++ ["build", "build/", "*.node", "*.js"]) ∧
      (∀ k, objGet (pbo1.scripts.getD []) k
          = if k = "preinstall" ∨ k = "install" ∨ k = "postinstall" then .undefined
            else objGet (pbo.scripts.getD []) k) ∧
      pbo1.prebuilt = t ∧
      (∃ bin1 entry1, dist1.bin = some bin1 ∧ bin1.lookup t.toStr = some entry1 ∧
        objGet entry1 "shasum" = .str s ∧
        (∀ k, k ≠ "shasum" →
          objGet entry1 k = objGet (((dist.bin.getD []).lookup t.toStr).getD []) k) ∧
        (∀ k, k ≠ t.toStr → bin1.lookup k = (dist.bin.getD []).lookup k)) ∧
      dist1.rest = dist.rest := by
  intro cf pb buildTarget tb pbj t1 t2 t3 pbo1 t4 t5 ht hinst hread hwrite hpack hsha hs hdist
    hown
  refine ⟨recordShasum dist t s, ?_, ?_, ?_, rfl, ?_, rfl⟩
  · simp only [preBuild, ht, emit_trace, List.append_assoc, List.cons_append, List.nil_append]
    simp only [t1, t2, t3, t4, t5, List.append_assoc, List.cons_append, List.nil_append, cf, pb,
      buildTarget, tb, pbj, pbo1] at hinst hread hwrite hpack hsha
    simp [hinst, hread, hwrite, hpack, hsha, hs, hdist, hown, World.emit, t5, t4, t3, t2, t1,
      tb, cf, pbj, buildTarget, pb, pbo1]
  · rfl
  · intro k
    cases hsc : pbo.scripts with
    | none => simp [pbo1, rewriteDescriptor, hsc, objGet]
    | some sc =>
      simp only [pbo1, rewriteDescriptor, hsc, Option.map_some', Option.getD_some, objGet_objDel]
      by_cases h1 : k = "postinstall"
      · simp [h1]
      · by_cases h2 : k = "install"
        · simp [h2]
        · by_cases h3 : k = "preinstall"
          · simp [h3]
          · simp [h1, h2, h3]
  · refine ⟨_, objSet (((dist.bin.getD []).lookup t.toStr).getD []) "shasum" (.str s), rfl,
      ?_, ?_, ?_, ?_⟩
    · rw [lookup_objSet]; simp
    · unfold objGet; rw [lookup_objSet]; simp
    · intro k hk
      unfold objGet; rw [lookup_objSet]; simp [hk]
    · intro k hk
      rw [lookup_objSet]; simp [hk]

/-- The rewrite of `nativePkg` for the target `linux-x64`. -/
theorem prebuild_rewrites_descriptor_witness :
    ∃ dist1,
      preBuild nativeEnv nativePkg (.str "linux-x64") w0
        = (.called none, some "/cache/native/1.0.0/package-linux-x64.tgz",
            { nativePkg with dist := some dist1 },
            { w0 with trace :=
                [.log "verbose" "preBuild", .log "verbose" "preBuild",
                 .install "/cache/native/1.0.0/build" "/cache/native/1.0.0/package.tgz",
                 .log "info" "preBuild",
                 .readJson "/cache/native/1.0.0/build/node_modules/native/package.json",
                 .writeFile "/cache/native/1.0.0/build/node_modules/native/package.json"
                   (rewriteDescriptor nativePkg (.str "linux-x64")),
                 .pack "/cache/native/1.0.0/package-linux-x64.tgz"
                   "/cache/native/1.0.0/build/node_modules/native"
                   (rewriteDescriptor nativePkg (.str "linux-x64")) true,
                 .sha "/cache/native/1.0.0/package-linux-x64.tgz"] }) ∧
      (rewriteDescriptor nativePkg (.str "linux-x64")).files
        = some ["index.js", "build", "build/", "*.node", "*.js"] ∧
      (rewriteDescriptor nativePkg (.str "linux-x64")).scripts
        = some [("test", .str "node test.js")] ∧
      dist1.rest = [("shasum", .str "ffff")] :=
  match prebuild_rewrites_descriptor nativeEnv nativePkg (.str "linux-x64") w0 nativePkg "abc"
      ⟨none, [("shasum", .str "ffff")]⟩ (by decide) (by decide) rfl (by decide)
      (by decide) rfl (by decide) (by decide) (by decide) with
  | ⟨dist1, h1, _, _, _, _, h6⟩ => ⟨dist1, h1, by decide, by decide, h6⟩

/-- C7 (evaluation).  A descriptor whose `publishConfig` sets `bin-publish`
to "__proto__" reaches `preBuild` with the target "__proto__".  There every
prebuild step succeeds, the rebuilt descriptor is rewritten as claimed and the
tarball `package-__proto__.tgz` is returned, but the checksum is not recorded
in the original descriptor: `dist.bin` stays without any entry, and the write
of `shasum` lands on the object that every plain object inherits under
`__proto__`. -/
theorem prebuild_shasum_lands_on_prototype :
    prebuildTarget { protoPkg with modules := none }
        (applyPublishConfig protoPkg.publishConfig w0) = .str "__proto__" ∧
    (preBuild nativeEnv nativePkg (.str "__proto__") w0).1 = .called none ∧
    (preBuild nativeEnv nativePkg (.str "__proto__") w0).2.1
      = some "/cache/native/1.0.0/package-__proto__.tgz" ∧
    (preBuild nativeEnv nativePkg (.str "__proto__") w0).2.2.1.dist
      = some ⟨some [], [("shasum", .str "ffff")]⟩ ∧
    (preBuild nativeEnv nativePkg (.str "__proto__") w0).2.2.2.trace.filter
        (fun e => match e with | .sharedWrite _ _ _ => true | _ => false)
      = [.sharedWrite "__proto__" "shasum" (.str "abc")] ∧
    ((publish_ nativeEnv "." (some protoPkg) false nativeDir w0).2.1.bind
        (fun d => d.dist)).bind (fun dist => dist.bin) = some [] := by
  decide

/-! ## C6 -/

/-- C6.  In a publish step on a non-private descriptor for which prebuild
applies, let the install inside the Prebuild Sub-pipeline fail and the registry
upload succeed.  Then `preBuild` has returned success without tarball, having
logged the install and nothing after it but two log lines (no read or write of
a descriptor, no pack, no checksum); the descriptor keeps its `dist` map as it
was; and the publish step succeeds after upload and confirmation. -/
theorem prebuild_install_failure_degrades (env : Env)
    (f : List String → Bool → World → Outcome × World) (arg : String) (d : Pkg)
    (isRetry : Bool) (cachedir : String) (w : World) (ie : Err) :
    let d1 : Pkg := { d with modules := none }
    let w1 := applyPublishConfig d.publishConfig w
    let bd := prebuildTarget d1 w1
    let cf := env.resolve [env.cache, d.name, d.version]
    let pb := env.resolve [cf, "build"]
    let sourceBall := env.resolve [cf, "package.tgz"]
    let w2 : World := { w1 with trace := w1.trace ++ [.log "verbose" "preBuild",
      .log "verbose" "preBuild", .install pb sourceBall, .log "info" "preBuild",
      .log "warn" "preBuild"] }
    let readmeFile := env.resolve [cachedir, "README.md"]
    let readme := env.readFile w2.trace readmeFile
    d.private_.truthy = false → bd.truthy = true →
    env.install (w1.trace ++ [.log "verbose" "preBuild", .log "verbose" "preBuild"]) pb
      sourceBall = some ie →
    env.registryPublish (w2.trace ++ [.readFile readmeFile]) d1 (cachedir ++ ".tgz") readme
      = none →
    preBuild env d1 bd w1 = (.called none, none, d1, w2) ∧
    d1.dist = d.dist ∧
    publish_With env f arg (some d) isRetry cachedir w
      = (.called none, some d1,
          { w2 with trace := w2.trace ++ [.readFile readmeFile,
            .registryPublish isRetry d1 (cachedir ++ ".tgz") readme,
            .output ("+ " ++ d1._id)] }) := by
  intro d1 w1 bd cf pb sourceBall w2 readmeFile readme hpriv hbd hinst hreg
  have hpre : preBuild env d1 bd w1 = (.called none, none, d1, w2) := by
    simp only [cf, pb, sourceBall, d1] at hinst
    simp [preBuild, hbd, hinst, World.emit, w2, cf, pb, sourceBall, d1]
  refine ⟨hpre, rfl, ?_⟩
  have hpriv1 : d1.private_.truthy = false := hpriv
  simp only [readmeFile, readme, w2, List.append_assoc, List.cons_append, List.nil_append,
    List.singleton_append] at hreg
  simp only [publish_With]
  rw [if_neg (by simp [hpriv])]
  rw [show preBuild env { d with modules := none }
      (prebuildTarget { d with modules := none } (applyPublishConfig d.publishConfig w))
      (applyPublishConfig d.publishConfig w) = (.called none, none, d1, w2) from hpre]
  simp [regPublishWith, hreg, outputWrite, rollbackFailure, World.emit, readmeFile, readme]

/-- C6, witness: `nativePkg` with binary publishing configured and a failing
install. -/
theorem prebuild_install_failure_degrades_witness :
    nativePkg.private_.truthy = false ∧
    (prebuildTarget nativePkg wBin).truthy = true ∧
    preBuild nativeEnvNoInstall nativePkg (prebuildTarget nativePkg wBin) wBin
      = (.called none, none, nativePkg,
          { wBin with trace := [.log "verbose" "preBuild", .log "verbose" "preBuild",
            .install "/cache/native/1.0.0/build" "/cache/native/1.0.0/package.tgz",
            .log "info" "preBuild", .log "warn" "preBuild"] }) ∧
    (publish_With nativeEnvNoInstall noReentry "." (some nativePkg) false nativeDir wBin).1
      = .called none :=
  ⟨by decide, by decide,
   (prebuild_install_failure_degrades nativeEnvNoInstall noReentry "." nativePkg false nativeDir
      wBin otherErr (by decide) (by decide) (by decide) (by decide)).1,
   congrArg Prod.fst
     (prebuild_install_failure_degrades nativeEnvNoInstall noReentry "." nativePkg false
       nativeDir wBin otherErr (by decide) (by decide) (by decide) (by decide)).2.2⟩


/-! ## C8 -/

/-- C8 (amended).  For every descriptor whose `private` flag is truthy,
whatever its `publishConfig`, its scripts and the configuration, the publish
step fails with the private-package error; the world it leaves is the one
obtained by applying the `publishConfig` overrides: the log has grown by one
log line per override and by no call to any collaborator (no upload, no
unpublish, no install), `npm.ROLLBACK` is untouched, the configuration is the
old one with the overrides set in order; and the descriptor is the old one
with its `modules` field deleted. -/
theorem private_never_reaches_registry (env : Env)
    (f : List String → Bool → World → Outcome × World) (arg : String) (d : Pkg)
    (isRetry : Bool) (cachedir : String) (w : World) (hp : d.private_.truthy = true) :
    publish_With env f arg (some d) isRetry cachedir w
      = (.called (some privateError), some { d with modules := none },
          applyPublishConfig d.publishConfig w) ∧
    (applyPublishConfig d.publishConfig w).trace
      = w.trace ++ List.replicate (d.publishConfig.getD []).length
          (.log "info" "publishConfig") ∧
    (applyPublishConfig d.publishConfig w).ROLLBACK = w.ROLLBACK ∧
    (applyPublishConfig d.publishConfig w).config
      = (d.publishConfig.getD []).foldl (fun c kv => objSet c kv.1 kv.2) w.config := by
  refine ⟨?_, applyPublishConfig_spec d.publishConfig w⟩
  simp [publish_With, hp]

/-- C8, witness: a private descriptor whose `publishConfig` sets `force`. -/
theorem private_never_reaches_registry_witness :
    ({ secretPkg with publishConfig := some [("force", .bool true)] } : Pkg).private_.truthy
      = true ∧
    publish_With healthy noReentry "."
        (some { secretPkg with publishConfig := some [("force", .bool true)] }) false sampleDir w0
      = (.called (some privateError),
          some { secretPkg with publishConfig := some [("force", .bool true)], modules := none },
          ⟨[.log "info" "publishConfig"], [("force", .bool true)], false⟩) :=
  ⟨by decide,
   (private_never_reaches_registry healthy noReentry "."
      { secretPkg with publishConfig := some [("force", .bool true)] } false sampleDir w0
      (by decide)).1⟩

/-- C8, counterexample.  The private stop is not free of other side effects:
the descriptor handed to the publish step comes back without its `modules`
field (line 74 runs before the check of line 75). -/
theorem private_stop_deletes_modules :
    secretPkg.private_.truthy = true ∧
    secretPkg.modules = some (.str "lib") ∧
    publish_ healthy "." (some secretPkg) false sampleDir w0
      = (.called (some privateError), some { secretPkg with modules := none }, w0) ∧
    ({ secretPkg with modules := none } : Pkg) ≠ secretPkg := by
  decide

/-! ## C4 -/

/-- The value `bd` depends on the configuration only. -/
theorem prebuildTarget_congr (d : Pkg) (w w1 : World) (h : w.config = w1.config) :
    prebuildTarget d w = prebuildTarget d w1 := by
  simp [prebuildTarget, configGet, h]

/-- C4 (amended).  Let the argument resolve to a directory with a readable
`package.json` (`didPre = true`), staging return a valid non-private descriptor
`d`, prebuild not apply, every registry upload and every lifecycle hook
succeed.  Then `publish` succeeds, writes the one confirmation
"+ name@version", runs through the Lifecycle Runner the hooks publish and
postpublish, in that order, in the staged directory (and no prepublish hook:
that stage of the orchestrator is skipped when `didPre` is true), and makes no
unpublish call. -/
theorem directory_publish_succeeds (env : Env) (arg : String) (isRetry : Bool) (w : World)
    (pj d : Pkg)
    (hjson : env.readJson (w.trace ++ [.log "verbose" "publish"])
      (env.resolve [arg, "package.json"]) = .ok pj)
    (hstage : env.cacheAdd (w.trace ++ [.log "verbose" "publish",
      .readJson (env.resolve [arg, "package.json"])]) arg = .ok d)
    (hvalid : d._id = d.name ++ "@" ++ d.version)
    (hpriv : d.private_.truthy = false)
    (hnopre : (prebuildTarget { d with modules := none }
      (applyPublishConfig d.publishConfig w)).truthy = false)
    (hreg : ∀ t p tb rd, env.registryPublish t p tb rd = none)
    (hhooks : ∀ t p h dir, env.lifecycle t p h dir = none) :
    (publish env [arg] isRetry w).1 = .called none ∧
    outputs (publish env [arg] isRetry w).2.trace
      = outputs w.trace ++ ["+ " ++ (d.name ++ "@" ++ d.version)] ∧
    hooks (publish env [arg] isRetry w).2.trace
      = hooks w.trace ++
          [("publish", env.resolve [env.cache, d.name, d.version, "package"]),
           ("postpublish", env.resolve [env.cache, d.name, d.version, "package"])] ∧
    unpublishes (publish env [arg] isRetry w).2.trace = unpublishes w.trace := by
  have hbd : ∀ w1 : World, w1.config = w.config →
      (prebuildTarget { d with modules := none }
        (applyPublishConfig d.publishConfig w1)).truthy = false := by
    intro w1 h1
    rw [prebuildTarget_congr _ _ (applyPublishConfig d.publishConfig w)
      (by rw [(applyPublishConfig_spec _ _).2.2, (applyPublishConfig_spec _ _).2.2, h1])]
    exact hnopre
  have hlog : ∀ n, List.filterMap (fun e => match e with | Event.output l => some l | _ => none)
      (List.replicate n (Event.log "info" "publishConfig")) = [] ∧
      List.filterMap (fun e => match e with
        | Event.lifecycle _ hook dir => some (hook, dir) | _ => none)
      (List.replicate n (Event.log "info" "publishConfig")) = [] ∧
      List.filterMap (fun e => match e with | Event.unpublish ids => some ids | _ => none)
      (List.replicate n (Event.log "info" "publishConfig")) = [] := by
    intro n
    induction n with
    | zero => simp
    | succ n ih => simp [List.replicate_succ, ih]
  have hrun : publish env [arg] isRetry w
      = (.called none,
          (((((applyPublishConfig d.publishConfig
            ((((w.emit (.log "verbose" "publish")).emit
              (.readJson (env.resolve [arg, "package.json"]))).emit (.cacheAdd arg)).emit
                (.log "silly" "publish"))).emit
            (.readFile (env.resolve [env.resolve [env.cache, d.name, d.version, "package"],
              "README.md"]))).emit
            (.registryPublish isRetry { d with modules := none }
              (env.resolve [env.cache, d.name, d.version, "package"] ++ ".tgz")
              (env.readFile (applyPublishConfig d.publishConfig
                ((((w.emit (.log "verbose" "publish")).emit
                  (.readJson (env.resolve [arg, "package.json"]))).emit (.cacheAdd arg)).emit
                    (.log "silly" "publish"))).trace
                (env.resolve [env.resolve [env.cache, d.name, d.version, "package"],
                  "README.md"])))).emit
            (.output ("+ " ++ d._id))).emit
            (.lifecycle { d with modules := none } "publish"
              (env.resolve [env.cache, d.name, d.version, "package"]))).emit
            (.lifecycle { d with modules := none } "postpublish"
              (env.resolve [env.cache, d.name, d.version, "package"]))) := by
    have hb := hbd ((((w.emit (.log "verbose" "publish")).emit
              (.readJson (env.resolve [arg, "package.json"]))).emit (.cacheAdd arg)).emit
                (.log "silly" "publish")) rfl
    simp only [publish, publishWith, List.length_singleton, one_ne_zero, if_false, emit_trace,
      hjson, List.append_assoc, List.singleton_append, cacheAddPublishWith, hstage,
      Bool.not_true, Bool.false_eq_true, chain_none, chain_some, chain_nil, publish_Step,
      publish_With, hpriv, preBuild, hb, Bool.not_false, if_true, regPublishWith, hreg,
      outputWrite, rollbackFailure, lifecycle_apply, hhooks, Option.getD_some]
  rw [hrun]
  simp only [emit_trace, (applyPublishConfig_spec _ _).1]
  simp [outputs, hooks, unpublishes, List.filterMap_append, hlog, hvalid]

/-- C4, witness: the healthy environment, argument ".". -/
theorem directory_publish_succeeds_witness :
    (publish healthy ["."] false w0).1 = .called none ∧
    outputs (publish healthy ["."] false w0).2.trace = ["+ " ++ ("mypkg" ++ "@" ++ "1.0.0")] ∧
    hooks (publish healthy ["."] false w0).2.trace
      = [("publish", sampleDir), ("postpublish", sampleDir)] ∧
    unpublishes (publish healthy ["."] false w0).2.trace = [] :=
  directory_publish_succeeds healthy "." false w0 samplePkg samplePkg rfl rfl (by decide)
    (by decide) (by decide) (fun _ _ _ _ => rfl) (fun _ _ _ _ => rfl)

/-- C4, counterexample.  A local directory with a readable `package.json`, a
valid non-private descriptor, no prebuild, a healthy registry: the publish
succeeds, but the Lifecycle Runner is invoked for publish and postpublish
only; the orchestrator does not run its prepublish stage. -/
theorem directory_publish_skips_prepublish :
    healthy.readJson [.log "verbose" "publish"] (healthy.resolve [".", "package.json"])
      = .ok samplePkg ∧
    (publish healthy ["."] false w0).1 = .called none ∧
    (hooks (publish healthy ["."] false w0).2.trace).map Prod.fst = ["publish", "postpublish"] ∧
    (hooks (publish healthy ["."] false w0).2.trace).map Prod.fst
      ≠ ["prepublish", "publish", "postpublish"] :=
  ⟨rfl, by decide, by decide, by decide⟩


/-! ## C5 -/

/-- C5 (amended).  In every pipeline run (`cacheAddPublish`, as outer run or
as the re-entrant run of a forced retry, with any re-entry function) whose
staging succeeded, a failure of the pipeline's own prepublish, publish or
postpublish hook is what the pipeline's callback receives, and the hook call is
the last entry of the log: no later stage runs and the pipeline issues no
unpublish after it.  The Rollback Guard issues its unpublish exactly when the
stage it wraps hands it an error. -/
theorem hook_failure_stops_pipeline (env : Env)
    (f : List String → Bool → World → Outcome × World) (arg : String) (didPre isRetry : Bool)
    (w : World) (d : Pkg) (e : Err) (hstage : env.cacheAdd w.trace arg = .ok d) :
    let w2 := (w.emit (.cacheAdd arg)).emit (.log "silly" "publish")
    let cachedir := env.resolve [env.cache, d.name, d.version, "package"]
    let wp := if didPre then w2 else w2.emit (.lifecycle d "prepublish" cachedir)
    (didPre = false → env.lifecycle w2.trace d "prepublish" cachedir = some e →
      cacheAddPublishWith env f arg didPre isRetry w
        = (.called (some e), w2.emit (.lifecycle d "prepublish" cachedir))) ∧
    ((didPre = false → env.lifecycle w2.trace d "prepublish" cachedir = none) →
      ∀ d1 w3, publish_Step env f arg isRetry cachedir d wp = (.called none, d1, w3) →
        (env.lifecycle w3.trace d1 "publish" cachedir = some e →
          cacheAddPublishWith env f arg didPre isRetry w
            = (.called (some e), w3.emit (.lifecycle d1 "publish" cachedir))) ∧
        (env.lifecycle w3.trace d1 "publish" cachedir = none →
          env.lifecycle (w3.trace ++ [.lifecycle d1 "publish" cachedir]) d1 "postpublish"
            cachedir = some e →
          cacheAddPublishWith env f arg didPre isRetry w
            = (.called (some e), (w3.emit (.lifecycle d1 "publish" cachedir)).emit
                (.lifecycle d1 "postpublish" cachedir)))) ∧
    (∀ (data : Pkg) (er : Option Err) (w0 : World),
      calls (rollbackFailure env data er w0).2.trace
        = calls w0.trace ++ (match er with
            | none => []
            | some _ => [.unpublish [data.name ++ "@" ++ data.version]])) := by
  intro w2 cachedir wp
  refine ⟨?_, ?_, fun data er w0 => calls_rollbackFailure env data er w0⟩
  · intro hd hpre
    subst hd
    simp only [w2, cachedir] at hpre
    simp only [cacheAddPublishWith, hstage, Bool.not_false, if_true]
    rw [chain_some, lifecycle_apply, hpre]
  · intro hpre d1 w3 hstep
    have htail : cacheAddPublishWith env f arg didPre isRetry w
        = (match chain [some (lifecycle env "publish" cachedir),
              some (lifecycle env "postpublish" cachedir)] d1 w3 with
            | (out, _, w4) => (out, w4)) := by
      cases didPre with
      | true =>
        simp only [wp, if_true] at hstep
        simp only [w2, cachedir] at hstep
        simp only [cacheAddPublishWith, hstage, Bool.not_true, Bool.false_eq_true, if_false,
          chain_none]
        rw [chain_some, hstep]
      | false =>
        have hpre1 := hpre rfl
        simp only [wp, Bool.false_eq_true, if_false] at hstep
        simp only [w2, cachedir] at hstep hpre1
        simp only [cacheAddPublishWith, hstage, Bool.not_false, if_true]
        rw [chain_some, lifecycle_apply, hpre1]
        simp only []
        rw [chain_some, hstep]
    refine ⟨?_, ?_⟩
    · intro hpub
      rw [htail]
      simp [chain_some, lifecycle_apply, hpub]
    · intro hpub hpost
      rw [htail]
      simp [chain_some, chain_nil, lifecycle_apply, hpub, hpost]

/-- C5, witness: the prepublish hook fails for a tarball argument, and the
publish hook fails for a directory argument. -/
theorem hook_failure_stops_pipeline_witness :
    cacheAddPublishWith (hookFails "prepublish") noReentry "pkg.tgz" false false w0
      = (.called (some hookErr),
          ⟨[.cacheAdd "pkg.tgz", .log "silly" "publish",
            .lifecycle samplePkg "prepublish" sampleDir], [], false⟩) ∧
    cacheAddPublishWith (hookFails "publish") noReentry "." true false w0
      = (.called (some hookErr),
          (publish_Step (hookFails "publish") noReentry "." false sampleDir samplePkg
            ⟨[.cacheAdd ".", .log "silly" "publish"], [], false⟩).2.2.emit
              (.lifecycle samplePkg "publish" sampleDir)) :=
  ⟨(hook_failure_stops_pipeline (hookFails "prepublish") noReentry "pkg.tgz" false false w0
      samplePkg hookErr rfl).1 rfl (by decide),
   ((hook_failure_stops_pipeline (hookFails "publish") noReentry "." true false w0
      samplePkg hookErr rfl).2.1 (fun h => absurd h (by decide)) samplePkg
      (publish_Step (hookFails "publish") noReentry "." false sampleDir samplePkg
        ⟨[.cacheAdd ".", .log "silly" "publish"], [], false⟩).2.2 rfl).1 (by decide)⟩

/-- C5, counterexample.  In a forced retry whose re-entrant upload succeeds,
the failure of the re-entrant run's publish hook reaches the outer Rollback
Guard: the hook error is returned, but an unpublish of `name@version` is issued
after the hook failure although no registry upload failed after the retry. -/
theorem hook_failure_in_forced_retry_is_rolled_back :
    (publish conflictOnceHookFails ["."] false wForce).1 = .called (some hookErr) ∧
    calls (publish conflictOnceHookFails ["."] false wForce).2.trace
      = [.cacheAdd ".",
         .registryPublish false samplePkg (sampleDir ++ ".tgz") none,
         .unpublish ["mypkg@1.0.0"],
         .cacheAdd ".",
         .registryPublish true samplePkg (sampleDir ++ ".tgz") none,
         .output "+ mypkg@1.0.0",
         .lifecycle samplePkg "publish" sampleDir,
         .unpublish ["mypkg@1.0.0"]] ∧
    (publish conflictOnceHookFails ["."] false wForce).2.ROLLBACK = true := by
  decide

/-! ## C3 -/

/-- C3 (evaluation).  The Registry Publisher never looks at the prebuilt
tarball it is handed.  With `nativePkg`, binary publishing configured and every
prebuild step succeeding, `preBuild` returns a secondary tarball, the publish
step succeeds, and the one upload is made with the primary tarball
`<stagedDir>.tgz`. -/
theorem upload_ignores_prebuilt_tarball :
    (∀ (env : Env) (f : List String → Bool → World → Outcome × World) (d : Pkg)
        (prebuilt : Option String) (r : Bool) (arg cd : String) (w : World),
      regPublishWith env f d prebuilt r arg cd w = regPublishWith env f d none r arg cd w) ∧
    (preBuild nativeEnv nativePkg (prebuildTarget nativePkg wBin) wBin).2.1
      = some "/cache/native/1.0.0/package-true.tgz" ∧
    (publish_ nativeEnv "." (some nativePkg) false nativeDir wBin).1 = .called none ∧
    uploads (publish_ nativeEnv "." (some nativePkg) false nativeDir wBin).2.2.trace
      = [(false, "/cache/native/1.0.0/package.tgz")] :=
  ⟨fun _ _ _ _ _ _ _ _ => rfl, by decide, by decide, by decide⟩

/-! ## C9 -/

/-- Whenever prebuild applies, the value `bd` of lines 80-85 is the value of
the `bin-publish` setting: `a && b` yields its right operand when the left one
is truthy. -/
theorem prebuildTarget_eq_binPublish (d : Pkg) (w : World)
    (h : (prebuildTarget d w).truthy = true) :
    prebuildTarget d w = configGet w "bin-publish" := by
  unfold prebuildTarget at h ⊢
  cases hs : d.scripts with
  | none => simp [hs, JSVal.truthy] at h
  | some s =>
    simp only [hs] at h ⊢
    generalize (((objGet s "preinstall").or (objGet s "install")).or
      (objGet s "postinstall")).and (configGet w "bindist") = a at h ⊢
    unfold JSVal.and at h ⊢
    by_cases ha : a.truthy = true
    · simp [ha]
    · simp [ha] at h

/-- C9 (evaluation).  With an install script declared, `bindist` set to
"linux-x64" and `bin-publish` set to `true`, prebuild applies and the Prebuild
Sub-pipeline works under the target `true`, the value of the `bin-publish`
setting, not under "linux-x64": the tarball is `package-true.tgz`, the rebuilt
descriptor is tagged `prebuilt = true`, and the checksum is recorded under
`dist.bin["true"]`. -/
theorem prebuild_target_is_bin_publish_value :
    configGet wBin "bindist" = .str "linux-x64" ∧
    configGet wBin "bin-publish" = .bool true ∧
    prebuildTarget nativePkg wBin = .bool true ∧
    (preBuild nativeEnv nativePkg (prebuildTarget nativePkg wBin) wBin).2.1
      = some "/cache/native/1.0.0/package-true.tgz" ∧
    (preBuild nativeEnv nativePkg (prebuildTarget nativePkg wBin) wBin).2.2.2.trace.filterMap
        (fun e => match e with | .writeFile _ body => some body.prebuilt | _ => none)
      = [.bool true] ∧
    (preBuild nativeEnv nativePkg (prebuildTarget nativePkg wBin) wBin).2.2.1.dist
      = some ⟨some [("true", [("shasum", .str "abc")])], [("shasum", .str "ffff")]⟩ := by
  decide

end Publish
